import Mathlib

/-
Verification of the ff-bot repository: the name-reconciliation pipeline
(fpl-players.py), the incremental fixture/player-stat ingestion
(data-scraper.py, both generations), and the derived-metrics and
selection layer of the dashboard (app.py). Python/pandas operations are
shallowly embedded as pure functions over lists; pandas float semantics
(division by zero yielding inf or NaN) are modelled explicitly.
-/

namespace FFBot

/-! ## Identity reconciliation (src/fpl-players.py, src/scripts/fpl-players.py) -/

/-- The PLAYER_NAME_MANUAL dictionary from fpl-players.py (identical in both
generations): FPL full name mapped to FBRef name. -/
def PLAYER_NAME_MANUAL : List (String × String) := [
  ("Yéremy Pino Santos", "Yeremi Pino"),
  ("Endo Wataru", "Wataru Endo"),
  ("Carlos Henrique Casimiro", "Casimiro"),
  ("Mitoma Kaoru", "Kaoru Mitoma"),
  ("Kevin Santos Lopes de Macedo", "Kevin"),
  ("Rodrigo \x27Rodri\x27 Hernandez Cascante", "Rodri"),
  ("Igor Thiago Nascimento Rodrigues", "Thiago"),
  ("Lucas Tolentino Coelho de Lima", "Lucas Paquetá"),
  ("Murillo Costa dos Santos", "Murillo"),
  ("Felipe Rodrigues da Silva", "Morato"),
  ("André Trindade da Costa Neto", "André"),
  ("Igor Julio dos Santos de Paulo", "Igor"),
  ("Sávio Moreira de Oliveira", "Sávio"),
  ("Norberto Bercique Gomes Betuncal", "Beto"),
  ("João Pedro Ferreira da Silva", "Jota Silva")]

/-- Series.map(PLAYER_NAME_MANUAL): dictionary lookup of the FPL full name,
NaN (none) when absent. -/
def manualOverride (fullname : String) : Option String :=
  (PLAYER_NAME_MANUAL.find? (fun p => p.1 == fullname)).map (fun p => p.2)

/-- pandas Series.combine_first at the level of a single cell: keep the first
value when it is non-null, otherwise fall back to the second. -/
def combineFirst (a b : Option String) : Option String :=
  a.orElse (fun _ => b)

/-- The fuzzy tier of suggest_fuzzy_matches for one name: process.extractOne
returns the best candidate with its score; the candidate is kept only when
the score meets the threshold, otherwise fbref_name is None. The rapidfuzz
scorer itself is the external collaborator, so the best match is a
parameter. -/
def fuzzyCandidate (best : Option (String × ℚ)) (threshold : ℚ) : Option String :=
  match best with
  | some (name, score) => if threshold ≤ score then some name else none
  | none => none

/-- The combine_first chain that produces name_match in both generations
(fpl-players.py main, scripts/fpl-players.py update_reference_names):
Player (exact match) .combine_first(Manual Override).combine_first(fbref_name). -/
def name_match (exact manual fuzzy : Option String) : Option String :=
  combineFirst (combineFirst exact manual) fuzzy

/-- The Manual Override column as it appears for a row of the merged frame:
fuzzy matching (and its Manual Override column) is only computed for rows
whose exact match is null, and is merged back with a left join, so rows with
an exact match carry a null override. -/
def mergedManual (exact : Option String) (fullname : String) : Option String :=
  if exact.isSome then none else manualOverride fullname

/-- The fbref_name (fuzzy) column of the merged frame: computed only for rows
with no exact match, null for the rest. -/
def mergedFuzzy (exact : Option String) (best : Option (String × ℚ))
    (threshold : ℚ) : Option String :=
  if exact.isSome then none else fuzzyCandidate best threshold

/-- The resolved name of one fantasy player record, following the merge and
combine_first chain of the source. -/
def resolvedName (exact : Option String) (fullname : String)
    (best : Option (String × ℚ)) (threshold : ℚ) : Option String :=
  name_match exact (mergedManual exact fullname) (mergedFuzzy exact best threshold)

/-! ## Fixture normalizer (_clean_fixture_data, both scraper generations) -/

/-- Python str.replace(c, "") on a single character: remove every occurrence
of that character from the string. -/
def removeAll (c : Char) (s : String) : String :=
  ⟨s.data.filter (fun d => d ≠ c)⟩

/-- The deterministic fixture identifier of _clean_fixture_data (identical in
both generations): home team with spaces removed, away team with spaces
removed, and date with hyphens removed, joined with underscores. -/
def game_id (home away date : String) : String :=
  removeAll ' ' home ++ "_" ++ removeAll ' ' away ++ "_" ++ removeAll '-' date

/-- URL prefix of a completed match page, from
scripts/data-scraper.py _clean_fixture_data. -/
def completedMatchUrl : String := "https://fbref.com/en/matches/"

/-- game_played of the pydoll generation (scripts/data-scraper.py):
np.where(match_report_link.str.startswith(completedMatchUrl), True, False). -/
def game_played_v2 (match_report_link : String) : Bool :=
  completedMatchUrl.isPrefixOf match_report_link

/-- game_played of the playwright generation (src/data-scraper.py):
np.where(fixtures[Score].isna(), False, True) — true iff the score cell is
non-null, the match-report link is never consulted. -/
def game_played_legacy (score : Option String) : Bool :=
  score.isSome

/-- One raw fixture row of the pydoll generation, keyed by the data-stat
attributes read off the schedule table. -/
structure FixtureRowV2 where
  home_team : String
  away_team : String
  date : String
  gameweek : String
  score : String
  match_report_link : String
deriving DecidableEq

/-- A canonical fixture record after _clean_fixture_data of the pydoll
generation: the computed game_played and game_id columns next to the
retained source columns. -/
structure Fixture where
  game_id : String
  game_played : Bool
  match_report_link : String
deriving DecidableEq

/-- The per-row part of the pydoll _clean_fixture_data: the computed columns
of one retained row. -/
def cleanRowV2 (r : FixtureRowV2) : Fixture :=
  { game_id := game_id r.home_team r.away_team r.date,
    game_played := game_played_v2 r.match_report_link,
    match_report_link := r.match_report_link }

/-! ## Incremental merge store (data-scraper.py get_player_data and
_extract_and_save_player_stats, pydoll generation) -/

/-- The seven stat categories of PLAYER_TABLES (pydoll generation keys). -/
inductive StatType where
  | summary | passing | passing_types | defense | possession | misc | keeper
deriving DecidableEq

/-- One extracted player row before the game_id stamp: the data-stat cells of
a tr element plus the home flag. -/
structure StatRowBase where
  player : String
  home : Bool
  fields : List (String × String)
deriving DecidableEq

/-- One durable player-stat row: an extracted row stamped with the owning
fixture identifier (row_data_df[game_id] = game_id). -/
structure StatRow where
  base : StatRowBase
  game_id : String
deriving DecidableEq

/-- Stamping the freshly extracted rows with the fixture identifier. -/
def stamp (g : String) (b : StatRowBase) : StatRow :=
  { base := b, game_id := g }

/-- The in-memory player_data_dict: one durable table per stat category. -/
def PlayerData := StatType → List StatRow

/-- The per-category merge step of _extract_and_save_player_stats: drop every
existing row whose game_id equals the ingested fixture identifier, then
append the freshly extracted rows stamped with it. (The source guards the
filter behind an emptiness test; filtering an empty table is the identity,
so the unguarded filter is the same function.) -/
def mergeFixtureRows (g : String) (fresh : List StatRowBase)
    (tbl : List StatRow) : List StatRow :=
  tbl.filter (fun r => r.game_id != g) ++ fresh.map (stamp g)

/-- Processing one match: _extract_and_save_player_stats updates every
category table independently with the rows extracted for that category.
The extraction of rows from the fetched page is the external collaborator,
passed as a function. -/
def processMatch (extract : StatType → List StatRowBase) (g : String)
    (pd : PlayerData) : PlayerData :=
  fun t => mergeFixtureRows g (extract t) (pd t)

/-- The fixture identifiers already present in the primary (summary) table,
as collected by _load_existing_data from players_summary.csv. -/
def existingGameIds (pd : PlayerData) : List String :=
  (pd StatType.summary).map (fun r => r.game_id)

/-- The work list of get_player_data: played fixtures whose game_id is not
among the existing identifiers
(played_games[~played_games[game_id].isin(existing_game_ids)]). -/
def newGames (fixtures : List Fixture) (pd : PlayerData) : List Fixture :=
  (fixtures.filter (fun f => f.game_played)).filter
    (fun f => !(existingGameIds pd).contains f.game_id)

/-- get_player_data as a state transition on the per-category tables: compute
the work list; when it is empty return at once, otherwise process each new
game in turn. The per-match page fetch and extraction is the external
collaborator extractFor, keyed by the game identifier. -/
def get_player_data (extractFor : String → StatType → List StatRowBase)
    (fixtures : List Fixture) (pd : PlayerData) : PlayerData :=
  (newGames fixtures pd).foldl
    (fun acc f => processMatch (extractFor f.game_id) f.game_id acc) pd

/-! ## Pandas float semantics for the derived metrics (app.py).

pandas arithmetic on float columns follows IEEE semantics and never raises
on division by zero: a nonzero value divided by zero gives a signed
infinity, zero divided by zero gives NaN (the null of a float column). -/

/-- A pandas float cell: NaN (null), a signed infinity, or a finite value
modelled as a rational. -/
inductive PFloat where
  | nan : PFloat
  | inf : PFloat
  | neginf : PFloat
  | num : ℚ → PFloat
deriving DecidableEq

/-- Division of pandas float cells (IEEE): finite/0 is NaN for 0/0 and a
signed infinity otherwise; NaN propagates; finite/infinite is 0;
infinite/finite keeps the (combined) sign; infinite/infinite is NaN. -/
def PFloat.div : PFloat → PFloat → PFloat
  | nan, _ => nan
  | _, nan => nan
  | num a, num b =>
      if b = 0 then (if a = 0 then nan else if 0 < a then inf else neginf)
      else num (a / b)
  | num _, inf => num 0
  | num _, neginf => num 0
  | inf, num b => if 0 ≤ b then inf else neginf
  | neginf, num b => if 0 ≤ b then neginf else inf
  | inf, inf => nan
  | inf, neginf => nan
  | neginf, inf => nan
  | neginf, neginf => nan

/-- Multiplication of pandas float cells (IEEE): NaN propagates; an infinity
times zero is NaN, otherwise the sign combines. -/
def PFloat.mul : PFloat → PFloat → PFloat
  | nan, _ => nan
  | _, nan => nan
  | num a, num b => num (a * b)
  | inf, num b => if 0 < b then inf else if b < 0 then neginf else nan
  | num a, inf => if 0 < a then inf else if a < 0 then neginf else nan
  | neginf, num b => if 0 < b then neginf else if b < 0 then inf else nan
  | num a, neginf => if 0 < a then neginf else if a < 0 then inf else nan
  | inf, inf => inf
  | neginf, neginf => inf
  | inf, neginf => neginf
  | neginf, inf => neginf

/-- numpy rounding of a finite value to an integer: round half to even. -/
def roundHalfEven (q : ℚ) : ℤ :=
  if q - ⌊q⌋ = 1 / 2 then (if Even ⌊q⌋ then ⌊q⌋ else ⌊q⌋ + 1)
  else round q

/-- Series.round(d): round a finite cell to d decimal places (half to even,
as numpy does); NaN and infinities are unchanged. -/
def PFloat.roundTo (d : ℕ) : PFloat → PFloat
  | num q => num ((roundHalfEven (q * 10 ^ d) : ℚ) / 10 ^ d)
  | x => x

/-- The Per 90 column of get_summary_stats:
(summary_stats[Total] / minutes_played[top_players] * 90).round(2), where
Total is the summed metric over the selected window and minutes_played the
summed minutes over the same window. -/
def per90 (total minutes : PFloat) : PFloat :=
  ((total.div minutes).mul (PFloat.num 90)).roundTo 2

/-- The Shot_Conversion column of load_player_data:
(df[goals] / df[shots] * 100).round(1). -/
def shot_conversion (goals shots : PFloat) : PFloat :=
  ((goals.div shots).mul (PFloat.num 100)).roundTo 1

/-! ## Sorting building blocks.

numpy argsort with the default quicksort kind runs plain insertion sort on
small arrays: an element is inserted after every earlier element that is
less than or equal to it, so equal elements keep their input order. pandas
Series.sort_values(ascending=False) computes the ascending argsort and then
reverses the whole indexer, which reverses the relative order of equal
elements. The comparator is a Bool so the sort stays executable. -/

/-- Insert x into a list, after every leading element y with le y x = true
(the stable ascending insertion step). -/
def insBy (le : α → α → Bool) (x : α) : List α → List α
  | [] => [x]
  | y :: ys => if le y x then y :: insBy le x ys else x :: y :: ys

/-- Stable ascending insertion sort by the comparator le: the elements are
taken left to right and each is inserted after its equals, as the numpy
insertion sort does. -/
def sortBy (le : α → α → Bool) (l : List α) : List α :=
  l.foldl (fun acc x => insBy le x acc) []

/-! ## Dashboard selection and series (app.py get_selected_data,
get_player_comparisons, get_summary_stats inputs) -/

/-- One row of the joined dashboard frame, restricted to the columns the
selection pipeline reads: the player name, the FPL position and cost, the
gameweek number, the selected metric value and the minutes played. -/
structure AppRow where
  player : String
  position : String
  fpl_cost : ℚ
  gameweek_number : ℤ
  metric : ℚ
  minutes : ℚ
deriving DecidableEq

/-- The position and price filters at the head of get_selected_data. -/
def filteredRows (rows : List AppRow) (position : String) (price : ℚ) :
    List AppRow :=
  (rows.filter (fun r => r.position == position)).filter
    (fun r => decide (r.fpl_cost ≤ price))

/-- Series.max(): the maximum of a nonempty column, NaN (none) on an empty
one. -/
def seriesMax : List ℤ → Option ℤ
  | [] => none
  | x :: xs =>
      match seriesMax xs with
      | none => some x
      | some m => some (max x m)

/-- df[gameweek_number].max() over the filtered frame. -/
def maxGameweek (rows : List AppRow) : Option ℤ :=
  seriesMax (rows.map (fun r => r.gameweek_number))

/-- The recency window of get_selected_data:
df[df[gameweek_number] > max_gameweek - n_weeks]. On an empty filtered frame
the max is NaN and every comparison with NaN is false, so no row passes. -/
def recentData (rows : List AppRow) (position : String) (price : ℚ)
    (nWeeks : ℤ) : List AppRow :=
  let d := filteredRows rows position price
  match maxGameweek d with
  | none => []
  | some m => d.filter (fun r => decide (m - nWeeks < r.gameweek_number))

/-- Comparator on (player, total) pairs by the total. -/
def valLe (p q : String × ℚ) : Bool := decide (p.2 ≤ q.2)

/-- Lexicographic comparison of character lists by code point, the order
Python and pandas use on str values. -/
def charsLt : List Char → List Char → Bool
  | [], [] => false
  | [], _ :: _ => true
  | _ :: _, [] => false
  | a :: as, b :: bs =>
      if a.toNat < b.toNat then true
      else if b.toNat < a.toNat then false
      else charsLt as bs

/-- Lexicographic strict order on strings by code point. -/
def strLt (a b : String) : Bool := charsLt a.data b.data

/-- Comparator on player names: le via the lexicographic order. -/
def keyLe (a b : String) : Bool := !strLt b a

/-- The summed metric of one player over the given rows. -/
def totalOf (rows : List AppRow) (p : String) : ℚ :=
  ((rows.filter (fun r => r.player == p)).map (fun r => r.metric)).sum

/-- The distinct values of a key column (the set of group keys). -/
def dedupKeys : List String → List String
  | [] => []
  | x :: xs =>
      let d := dedupKeys xs
      if d.contains x then d else x :: d

/-- groupby(player)[metric].sum(): pandas groupby sorts the group keys
ascending (sort=True is the default), and each key carries the sum of the
metric over its rows. -/
def metricTotals (rows : List AppRow) : List (String × ℚ) :=
  (sortBy keyLe (dedupKeys (rows.map (fun r => r.player)))).map
    (fun p => (p, totalOf rows p))

/-- sort_values(ascending=False): ascending argsort (stable insertion sort on
small arrays) followed by reversal of the whole indexer. -/
def sortValuesDesc (l : List (String × ℚ)) : List (String × ℚ) :=
  (sortBy valLe l).reverse

/-- The ranked totals of get_selected_data:
metric_totals.sort_values(ascending=False). -/
def rankedTotals (rows : List AppRow) : List (String × ℚ) :=
  sortValuesDesc (metricTotals rows)

/-- top_players of get_selected_data: head(n_players).index.tolist(). -/
def topPlayers (rows : List AppRow) (n : ℕ) : List String :=
  ((rankedTotals rows).take n).map (fun p => p.1)

/-- get_selected_data: filter by position, price and recency window, then
return the window rows together with the top-n player list. -/
def get_selected_data (rows : List AppRow) (position : String) (price : ℚ)
    (nWeeks : ℤ) (n : ℕ) : List AppRow × List String :=
  let recent := recentData rows position price nWeeks
  (recent, topPlayers recent n)

/-- Comparator for sort_values(gameweek_number) on rows. -/
def gwLe (a b : AppRow) : Bool := decide (a.gameweek_number ≤ b.gameweek_number)

/-- Series.cumsum() with an explicit running accumulator. -/
def cumsumFrom (acc : ℚ) : List ℚ → List ℚ
  | [] => []
  | x :: xs => (acc + x) :: cumsumFrom (acc + x) xs

/-- Series.cumsum(): running sums of the list. -/
def cumsum (l : List ℚ) : List ℚ := cumsumFrom 0 l

/-- The per-player rows of get_player_comparisons: the window rows of that
player, sorted by gameweek ascending. -/
def playerWindowRows (recent : List AppRow) (p : String) : List AppRow :=
  sortBy gwLe (recent.filter (fun r => r.player == p))

/-- The cumulative series of get_player_comparisons for one selected player:
cumsum of the selected metric over the window rows of that player sorted by
gameweek. -/
def playerSeries (recent : List AppRow) (p : String) : List ℚ :=
  cumsum ((playerWindowRows recent p).map (fun r => r.metric))

/-! ## Fantasy-pricing loader (get_fpl_data, identical in both generations) -/

/-- The element_type → position dictionary POSITIONS. -/
def POSITIONS : List (ℕ × String) := [(1, "GK"), (2, "DEF"), (3, "MID"), (4, "FWD")]

/-- One raw element of the bootstrap-static feed, restricted to the COLUMNS
the loader keeps. now_cost and total_points are integers in the feed; form
and points_per_game are decimal strings. -/
structure RawElement where
  code : ℕ
  element_type : ℕ
  first_name : String
  second_name : String
  now_cost : ℤ
  form : String
  points_per_game : String
  total_points : ℤ
deriving DecidableEq

/-- One row of the frame get_fpl_data returns, after the rename, the position
map, the cost scaling and the fullname concatenation. -/
structure FplPlayer where
  player_code : ℕ
  position : Option String
  first_name : String
  last_name : String
  fpl_cost : ℚ
  fpl_form : String
  season_ppg : String
  total_points : ℤ
  fullname : String
deriving DecidableEq

/-- The per-row transform of get_fpl_data: rename the kept columns, map
element_type through POSITIONS (null when absent), divide now_cost by 10 and
concatenate first and last name with a single space. -/
def toFplPlayer (e : RawElement) : FplPlayer :=
  { player_code := e.code,
    position := (POSITIONS.find? (fun p => p.1 == e.element_type)).map (fun p => p.2),
    first_name := e.first_name,
    last_name := e.second_name,
    fpl_cost := (e.now_cost : ℚ) / 10,
    fpl_form := e.form,
    season_ppg := e.points_per_game,
    total_points := e.total_points,
    fullname := e.first_name ++ " " ++ e.second_name }

/-- get_fpl_data: transform every feed element, then keep the rows with
total_points strictly positive (df = df[df[total_points] > 0]). -/
def get_fpl_data (elements : List RawElement) : List FplPlayer :=
  (elements.map toFplPlayer).filter (fun p => decide (0 < p.total_points))

/-! ## Reconciler main run (scripts/fpl-players.py main,
match_player_names and update_reference_names) -/

/-- One row of the durable reference_player_names.csv: the stable player
code, the resolved FBRef name (nullable — update_reference_names appends
name_match verbatim, which may be null), and the FPL full name. -/
structure RefRow where
  player_code : ℕ
  fbref_name : Option String
  fpl_name : Option String
deriving DecidableEq

/-- The fbref_name a given player code receives from the left merge with the
reference table: null when the code is absent, otherwise the stored
(possibly null) name. The spec invariant is at most one mapping per code, so
the first matching row is the merge result. -/
def mergedRefName (refRows : List RefRow) (c : ℕ) : Option String :=
  ((refRows.find? (fun r => r.player_code == c)).map (fun r => r.fbref_name)).join

/-- The exact tier of match_player_names: the left merge of the FBRef name
list onto the missing FPL rows on player == fullname gives the fullname
itself exactly when it occurs among the FBRef names. -/
def exactMatch (fbrefNames : List String) (fullname : String) : Option String :=
  fbrefNames.find? (fun n => n == fullname)

/-- The three-tier resolution computed for one missing player in
match_player_names plus update_reference_names: exact match, else manual
override, else accepted fuzzy candidate (threshold 30 in main). The fuzzy
scorer is the external rapidfuzz collaborator, passed as an oracle giving
the best candidate and its score. -/
def tiersResolve (fbrefNames : List String)
    (fuzzyBest : String → Option (String × ℚ)) (fullname : String) :
    Option String :=
  name_match (exactMatch fbrefNames fullname) (manualOverride fullname)
    (fuzzyCandidate (fuzzyBest fullname) 30)

/-- The outcome of one reconciler main run: the final joined rows (none when
the run raised), the reference file contents after the run, and whether a
ValueError was raised. -/
structure MainResult where
  output : Option (List (ℕ × String))
  refFile : List RefRow
  raised : Bool
deriving DecidableEq

/-- main of scripts/fpl-players.py on the already-loaded inputs: left-merge
the FPL rows (code, fullname) with the reference table; when any merged
fbref_name is null, run the tiers over the missing rows and raise — after
appending the tier results to the reference file when UPDATE_REF is set;
otherwise return the joined dataset. -/
def mainRun (fpl : List (ℕ × String)) (refRows : List RefRow)
    (fbrefNames : List String) (fuzzyBest : String → Option (String × ℚ))
    (updateRef : Bool) : MainResult :=
  let missing := fpl.filter (fun r => (mergedRefName refRows r.1).isNone)
  if missing.isEmpty then
    { output := some (fpl.map (fun r => (r.1, (mergedRefName refRows r.1).getD ""))),
      refFile := refRows,
      raised := false }
  else if updateRef then
    { output := none,
      refFile := refRows ++ missing.map (fun r =>
        { player_code := r.1,
          fbref_name := tiersResolve fbrefNames fuzzyBest r.2,
          fpl_name := some r.2 }),
      raised := true }
  else
    { output := none, refFile := refRows, raised := true }

/-! ## Helper lemmas about the sorting building blocks -/

theorem insBy_perm (le : α → α → Bool) (x : α) (l : List α) :
    (insBy le x l).Perm (x :: l) := by
  induction l with
  | nil => exact List.Perm.refl _
  | cons y ys ih =>
      by_cases h : le y x = true
      · simpa [insBy, h] using ((ih.cons y).trans (List.Perm.swap x y ys))
      · simp [insBy, h]

theorem mem_insBy {le : α → α → Bool} {x z : α} {l : List α}
    (h : z ∈ insBy le x l) : z = x ∨ z ∈ l :=
  List.mem_cons.mp ((insBy_perm le x l).mem_iff.mp h)

theorem foldl_insBy_perm (le : α → α → Bool) (l acc : List α) :
    (l.foldl (fun a x => insBy le x a) acc).Perm (acc ++ l) := by
  induction l generalizing acc with
  | nil => simp
  | cons x xs ih =>
      have h1 := ih (insBy le x acc)
      have h2 : (insBy le x acc ++ xs).Perm (acc ++ x :: xs) := by
        have := (insBy_perm le x acc).append_right xs
        exact this.trans List.perm_middle.symm
      simpa [List.foldl_cons] using h1.trans h2

theorem sortBy_perm (le : α → α → Bool) (l : List α) :
    (sortBy le l).Perm l := by
  simpa [sortBy] using foldl_insBy_perm le l []

theorem insBy_sorted {le : α → α → Bool}
    (htot : ∀ a b, le a b = false → le b a = true)
    (htrans : ∀ a b c, le a b = true → le b c = true → le a c = true)
    (x : α) {l : List α} (hl : l.Sorted (fun a b => le a b = true)) :
    (insBy le x l).Sorted (fun a b => le a b = true) := by
  induction l with
  | nil => simp [insBy]
  | cons y ys ih =>
      rw [List.sorted_cons] at hl
      by_cases h : le y x = true
      · rw [insBy, if_pos h, List.sorted_cons]
        refine ⟨fun z hz => ?_, ih hl.2⟩
        rcases mem_insBy hz with rfl | hz
        · exact h
        · exact hl.1 z hz
      · rw [insBy, if_neg h, List.sorted_cons]
        have hxy : le x y = true := htot y x (Bool.eq_false_iff.mpr h)
        refine ⟨fun z hz => ?_, List.sorted_cons.mpr hl⟩
        rcases List.mem_cons.mp hz with rfl | hz
        · exact hxy
        · exact htrans x y z hxy (hl.1 z hz)

theorem sortBy_sorted {le : α → α → Bool}
    (htot : ∀ a b, le a b = false → le b a = true)
    (htrans : ∀ a b c, le a b = true → le b c = true → le a c = true)
    (l : List α) :
    (sortBy le l).Sorted (fun a b => le a b = true) := by
  have main : ∀ (m acc : List α), acc.Sorted (fun a b => le a b = true) →
      (m.foldl (fun a x => insBy le x a) acc).Sorted (fun a b => le a b = true) := by
    intro m
    induction m with
    | nil => intro acc h; simpa using h
    | cons x xs ih =>
        intro acc h
        simpa [List.foldl_cons] using ih (insBy le x acc) (insBy_sorted htot htrans x h)
  simpa [sortBy] using main l [] (by simp)

/-- Running sums: length is preserved. -/
theorem cumsumFrom_length (acc : ℚ) (l : List ℚ) :
    (cumsumFrom acc l).length = l.length := by
  induction l generalizing acc with
  | nil => rfl
  | cons x xs ih => simp [cumsumFrom, ih]

/-- Running sums: the k-th entry is the accumulator plus the sum of the
first k+1 values. -/
theorem cumsumFrom_getElem (l : List ℚ) (acc : ℚ) (k : ℕ) (hk : k < l.length) :
    (cumsumFrom acc l)[k]? = some (acc + (l.take (k + 1)).sum) := by
  induction l generalizing acc k with
  | nil => simp at hk
  | cons x xs ih =>
      cases k with
      | zero => simp [cumsumFrom]
      | succ k =>
          have hk2 : k < xs.length := by simpa using hk
          simpa [cumsumFrom, List.take_succ_cons, add_assoc] using ih (acc + x) k hk2

/-! ## Helper lemmas for the fixture identifier -/

/-- A list with a separator that occurs in neither prefix splits uniquely. -/
theorem sep_append_inj {a₁ a₂ b₁ b₂ : List Char}
    (h₁ : '_' ∉ a₁) (h₂ : '_' ∉ a₂)
    (h : a₁ ++ '_' :: b₁ = a₂ ++ '_' :: b₂) : a₁ = a₂ ∧ b₁ = b₂ := by
  induction a₁ generalizing a₂ with
  | nil =>
      cases a₂ with
      | nil => simpa using h
      | cons c t =>
          simp only [List.nil_append, List.cons_append, List.cons.injEq] at h
          exact absurd (h.1 ▸ List.mem_cons_self c t) h₂
  | cons c t ih =>
      cases a₂ with
      | nil =>
          simp only [List.nil_append, List.cons_append, List.cons.injEq] at h
          exact absurd (h.1.symm ▸ List.mem_cons_self c t) h₁
      | cons c2 t2 =>
          simp only [List.cons_append, List.cons.injEq] at h
          have ht : t = t2 ∧ b₁ = b₂ :=
            ih (fun hm => h₁ (List.mem_cons_of_mem c hm))
              (fun hm => h₂ (List.mem_cons_of_mem c2 hm)) h.2
          exact ⟨by rw [h.1, ht.1], ht.2⟩

/-- The character data of the fixture identifier. -/
theorem game_id_data (home away date : String) :
    (game_id home away date).data =
      (removeAll ' ' home).data ++ '_' ::
        ((removeAll ' ' away).data ++ '_' :: (removeAll '-' date).data) := by
  simp [game_id, String.data_append]

/-- Removing one character never introduces another. -/
theorem not_mem_removeAll {c d : Char} {s : String} (h : d ∉ s.data) :
    d ∉ (removeAll c s).data := by
  intro hm
  exact h (List.mem_of_mem_filter hm)

/-! ## Claim theorems -/

/-- C1: identity resolution precedence. For every fantasy player record the
resolved name is the exact FBRef match when one exists, otherwise the manual
override of the fantasy full name when the override table has an entry,
otherwise the best fuzzy candidate (when it met the threshold), otherwise
null. In particular, with both a manual override and a fuzzy candidate but
no exact match, the manual override is selected. -/
theorem c1_identity_resolution_precedence (exact : Option String)
    (fullname : String) (best : Option (String × ℚ)) (threshold : ℚ) :
    (∀ e, exact = some e →
      resolvedName exact fullname best threshold = some e)
    ∧ (exact = none → ∀ m, manualOverride fullname = some m →
      resolvedName exact fullname best threshold = some m)
    ∧ (exact = none → manualOverride fullname = none →
      resolvedName exact fullname best threshold = fuzzyCandidate best threshold)
    ∧ (exact = none → manualOverride fullname = none →
      fuzzyCandidate best threshold = none →
      resolvedName exact fullname best threshold = none) := by
  refine ⟨?_, ?_, ?_, ?_⟩
  · rintro e rfl
    simp [resolvedName, name_match, combineFirst, mergedManual, mergedFuzzy]
  · rintro rfl m hm
    simp [resolvedName, name_match, combineFirst, mergedManual, mergedFuzzy, hm]
  · rintro rfl hm
    simp [resolvedName, name_match, combineFirst, mergedManual, mergedFuzzy, hm]
  · rintro rfl hm hf
    simp [resolvedName, name_match, combineFirst, mergedManual, mergedFuzzy, hm, hf]

/-- Witness for C1: a player with no exact match, a manual-override entry
(Endo Wataru → Wataru Endo) and a live fuzzy candidate resolves to the
manual override. -/
theorem c1_witness :
    resolvedName none "Endo Wataru" (some ("Endo W", 50)) 30 = some "Wataru Endo" :=
  (c1_identity_resolution_precedence none "Endo Wataru" (some ("Endo W", 50)) 30).2.1
    rfl "Wataru Endo" (by decide)

/-- C4 counterexample: two distinct (home, away, date) triples with the same
fixture identifier — removing the space of the home team makes
(A B, C, 2024-01-01) and (AB, C, 20240101) collide, so the identifier is
not injective on distinct triples as the claim states. -/
theorem c4_counterexample :
    game_id "A B" "C" "2024-01-01" = game_id "AB" "C" "20240101"
    ∧ ("A B", "C", "2024-01-01") ≠ ("AB", "C", "20240101") := by
  constructor
  · decide
  · decide

/-- C4 amended: the fixture identifier is a pure function of the triple
(equal normalized components always give the identical identifier), and —
provided no team name contains an underscore — two triples receive the same
identifier exactly when they agree after removing spaces from the team
names and hyphens from the date. Uniqueness therefore holds only up to that
normalization, not for all distinct raw triples. -/
theorem c4_game_id_deterministic_and_collision_characterized
    (h₁ a₁ d₁ h₂ a₂ d₂ : String)
    (hh₁ : '_' ∉ h₁.data) (ha₁ : '_' ∉ a₁.data)
    (hh₂ : '_' ∉ h₂.data) (ha₂ : '_' ∉ a₂.data) :
    game_id h₁ a₁ d₁ = game_id h₂ a₂ d₂ ↔
      (removeAll ' ' h₁ = removeAll ' ' h₂ ∧ removeAll ' ' a₁ = removeAll ' ' a₂
        ∧ removeAll '-' d₁ = removeAll '-' d₂) := by
  constructor
  · intro h
    have hdata := congrArg String.data h
    rw [game_id_data, game_id_data] at hdata
    have s1 := sep_append_inj (not_mem_removeAll hh₁) (not_mem_removeAll hh₂) hdata
    have s2 := sep_append_inj (not_mem_removeAll ha₁) (not_mem_removeAll ha₂) s1.2
    exact ⟨String.ext s1.1, String.ext s2.1, String.ext s2.2⟩
  · rintro ⟨e1, e2, e3⟩
    rw [game_id, game_id, e1, e2, e3]

/-- Witness for C4 amended: the characterization applied to two concrete
triples free of underscores. -/
theorem c4_witness :
    game_id "Arsenal" "Aston Villa" "2024-08-17" =
        game_id "Arsenal" "AstonVilla" "20240817" ↔
      (removeAll ' ' "Arsenal" = removeAll ' ' "Arsenal"
        ∧ removeAll ' ' "Aston Villa" = removeAll ' ' "AstonVilla"
        ∧ removeAll '-' "2024-08-17" = removeAll '-' "20240817") :=
  c4_game_id_deterministic_and_collision_characterized
    "Arsenal" "Aston Villa" "2024-08-17" "Arsenal" "AstonVilla" "20240817"
    (by decide) (by decide) (by decide) (by decide)

/-- C2: ingestion is idempotent. The work list of get_player_data holds
exactly the played fixtures whose identifier is not already in the summary
table; and when every played fixture identifier is already present, the run
returns at once with every per-category table unchanged — the empty work
list is the normal no-op return of the function, not an error. -/
theorem c2_ingestion_idempotent
    (extractFor : String → StatType → List StatRowBase)
    (fixtures : List Fixture) (pd : PlayerData) :
    (∀ f, f ∈ newGames fixtures pd ↔
      f ∈ fixtures ∧ f.game_played = true ∧ f.game_id ∉ existingGameIds pd)
    ∧ ((∀ f ∈ fixtures, f.game_played = true → f.game_id ∈ existingGameIds pd) →
      get_player_data extractFor fixtures pd = pd) := by
  constructor
  · intro f
    constructor
    · intro hf
      have h := List.mem_filter.mp hf
      have h2 := List.mem_filter.mp h.1
      refine ⟨h2.1, h2.2, fun hc => ?_⟩
      have he : (existingGameIds pd).contains f.game_id = true := List.elem_iff.mpr hc
      rw [newGames, List.mem_filter, he] at hf
      simp at hf
    · rintro ⟨h1, h2, h3⟩
      refine List.mem_filter.mpr ⟨List.mem_filter.mpr ⟨h1, h2⟩, ?_⟩
      have he : (existingGameIds pd).contains f.game_id = false := by
        rw [Bool.eq_false_iff]
        intro hc
        exact h3 (List.elem_iff.mp hc)
      rw [he]
      rfl
  · intro hall
    have hempty : newGames fixtures pd = [] := by
      rw [newGames, List.filter_eq_nil_iff]
      intro f hf
      rw [List.mem_filter] at hf
      simpa [List.elem_iff] using hall f hf.1 hf.2
    rw [get_player_data, hempty]
    rfl

/-- Fixture and state used by the C2 witness: one played fixture whose
identifier is already in the summary table. -/
def c2State : PlayerData :=
  fun _ => [stamp "Arsenal_Chelsea_20240817" ⟨"Saka", true, []⟩]

/-- Witness for C2: with the lone played fixture already ingested, the run
leaves the whole state unchanged. -/
theorem c2_witness :
    get_player_data (fun _ _ => [⟨"Saka", true, []⟩])
      [⟨"Arsenal_Chelsea_20240817", true, "link"⟩] c2State = c2State :=
  (c2_ingestion_idempotent (fun _ _ => [⟨"Saka", true, []⟩])
    [⟨"Arsenal_Chelsea_20240817", true, "link"⟩] c2State).2 (by decide)

/-- C3: the merge store never duplicates a fixture. Processing a fixture
first removes every existing row with its identifier and then appends the
freshly extracted rows, so afterwards the rows carrying that identifier are
exactly the fresh extraction, and the rows of every other identifier are
untouched. -/
theorem c3_merge_no_duplication (g : String) (fresh : List StatRowBase)
    (tbl : List StatRow) :
    (mergeFixtureRows g fresh tbl).filter (fun r => r.game_id == g) =
      fresh.map (stamp g)
    ∧ ∀ g2, g2 ≠ g →
      (mergeFixtureRows g fresh tbl).filter (fun r => r.game_id == g2) =
        tbl.filter (fun r => r.game_id == g2) := by
  constructor
  · rw [mergeFixtureRows, List.filter_append]
    have h1 : (tbl.filter (fun r => r.game_id != g)).filter
        (fun r => r.game_id == g) = [] := by
      rw [List.filter_eq_nil_iff]
      intro r hr
      rw [List.mem_filter] at hr
      simpa using hr.2
    have h2 : (fresh.map (stamp g)).filter (fun r => r.game_id == g) =
        fresh.map (stamp g) := by
      rw [List.filter_eq_self]
      intro r hr
      rw [List.mem_map] at hr
      obtain ⟨b, _, rfl⟩ := hr
      simp [stamp]
    rw [h1, h2, List.nil_append]
  · intro g2 hg2
    rw [mergeFixtureRows, List.filter_append]
    have h1 : (fresh.map (stamp g)).filter (fun r => r.game_id == g2) = [] := by
      rw [List.filter_eq_nil_iff]
      intro r hr
      rw [List.mem_map] at hr
      obtain ⟨b, _, rfl⟩ := hr
      simpa [stamp] using hg2.symm
    have h2 : (tbl.filter (fun r => r.game_id != g)).filter
        (fun r => r.game_id == g2) = tbl.filter (fun r => r.game_id == g2) := by
      rw [List.filter_filter]
      refine List.filter_congr ?_
      intro r _
      by_cases h : r.game_id = g2
      · simp [h, hg2]
      · simp [h]
    rw [h1, h2, List.append_nil]

/-- Witness for C3: re-ingesting a fixture whose identifier already has a
stale row replaces it by the fresh rows and keeps the other fixture intact. -/
theorem c3_witness :
    (mergeFixtureRows "g1" [⟨"Rice", true, []⟩]
        [stamp "g1" ⟨"Old", false, []⟩, stamp "g2" ⟨"Palmer", true, []⟩]).filter
        (fun r => r.game_id == "g2") =
      [stamp "g1" ⟨"Old", false, []⟩, stamp "g2" ⟨"Palmer", true, []⟩].filter
        (fun r => r.game_id == "g2") :=
  (c3_merge_no_duplication "g1" [⟨"Rice", true, []⟩]
    [stamp "g1" ⟨"Old", false, []⟩, stamp "g2" ⟨"Palmer", true, []⟩]).2
    "g2" (by decide)

/-- C5 counterexample: the two scraper generations disagree, so the claimed
policy does not hold of every fixture row. A legacy row carrying a score but
no resolvable match-report link (the v2 placeholder is the literal no-link)
is marked played by the legacy scraper even though no completed-match link
is present, i.e. its flag is derived from the score, not the link pattern. -/
theorem c5_counterexample :
    game_played_legacy (some "2-1") = true ∧ game_played_v2 "no-link" = false := by
  constructor
  · decide
  · decide

/-- C5 amended: the pydoll-generation scraper derives game_played exactly
from the completed-match link prefix and ignores the score column entirely
(rows differing only in score clean identically), while the legacy
playwright-generation scraper derives game_played exactly from score
non-nullness and ignores the link. -/
theorem c5_played_flag_policies (r : FixtureRowV2) (s : String)
    (sc : Option String) :
    ((cleanRowV2 r).game_played = true ↔
      completedMatchUrl.isPrefixOf r.match_report_link = true)
    ∧ cleanRowV2 { r with score := s } = cleanRowV2 r
    ∧ (game_played_legacy sc = true ↔ sc.isSome = true) := by
  refine ⟨Iff.rfl, ?_, Iff.rfl⟩
  rfl

/-- Witness for C5 amended: a concrete played row of the pydoll generation,
with the score cell blanked, still cleans to the same record. -/
theorem c5_witness :
    cleanRowV2 ⟨"Arsenal", "Chelsea", "2024-08-17", "1", "",
        "https://fbref.com/en/matches/abc"⟩ =
      cleanRowV2 ⟨"Arsenal", "Chelsea", "2024-08-17", "1", "2-1",
        "https://fbref.com/en/matches/abc"⟩ :=
  (c5_played_flag_policies
    ⟨"Arsenal", "Chelsea", "2024-08-17", "1", "2-1",
      "https://fbref.com/en/matches/abc"⟩ "" none).2.1

/-- C6: the code does not guard the divide-by-zero of the derived metrics.
With a window where a player has summed minutes 0 and summed metric (Total)
2, the Per 90 cell is the float infinity, not null; likewise a row with
goals 2 and shots 0 gets an infinite shot conversion. The null (NaN) only
appears in the 0/0 case; nonzero shots divide normally. This contradicts
the claimed always-null guard. -/
theorem c6_per90_divide_by_zero_is_inf :
    per90 (PFloat.num 2) (PFloat.num 0) = PFloat.inf
    ∧ shot_conversion (PFloat.num 2) (PFloat.num 0) = PFloat.inf
    ∧ shot_conversion (PFloat.num 0) (PFloat.num 0) = PFloat.nan
    ∧ shot_conversion (PFloat.num 2) (PFloat.num 4) = PFloat.num 50 := by
  refine ⟨?_, ?_, ?_, ?_⟩
  · simp [per90, PFloat.div, PFloat.mul, PFloat.roundTo]
  · simp [shot_conversion, PFloat.div, PFloat.mul, PFloat.roundTo]
  · simp [shot_conversion, PFloat.div, PFloat.mul, PFloat.roundTo]
  · simp [shot_conversion, PFloat.div, PFloat.mul, PFloat.roundTo]
    norm_num [roundHalfEven]

theorem valLe_total (a b : String × ℚ) : valLe a b = false → valLe b a = true := by
  intro h
  simp only [valLe, decide_eq_false_iff_not] at h
  simpa [valLe] using le_of_not_le h

theorem valLe_trans (a b c : String × ℚ) :
    valLe a b = true → valLe b c = true → valLe a c = true := by
  intro h1 h2
  simp only [valLe, decide_eq_true_eq] at h1 h2
  simpa [valLe] using le_trans h1 h2

/-- The filtered dataset of the C7 scenario: metric totals 10, 10, 7 for
players A, B, C in source order A, B, C. -/
def c7Rows : List AppRow :=
  [⟨"A", "MID", 5, 1, 10, 90⟩, ⟨"B", "MID", 5, 1, 10, 90⟩, ⟨"C", "MID", 5, 1, 7, 90⟩]

/-- The position, price and recency filters keep every scenario row. -/
theorem recentData_c7Rows : recentData c7Rows "MID" 10 1 = c7Rows := by
  simp [recentData, filteredRows, maxGameweek, seriesMax, c7Rows]
  norm_num

/-- The grouped totals of the scenario: keys sorted ascending, summed metric. -/
theorem metricTotals_c7Rows :
    metricTotals c7Rows = [("A", 10), ("B", 10), ("C", 7)] := by
  simp [metricTotals, dedupKeys, sortBy, insBy, keyLe, strLt, charsLt, totalOf,
    c7Rows, List.filter_cons]

/-- The scenario selection: descending sort reverses the tie order. -/
theorem topPlayers_c7Rows : topPlayers c7Rows 2 = ["B", "A"] := by
  rw [topPlayers, rankedTotals, sortValuesDesc, metricTotals_c7Rows]
  norm_num [sortBy, insBy, valLe]

/-- C7 counterexample: on the very scenario of the claim — totals [10, 10, 7] for
A, B, C in source order with N = 2 — the selection returns B then A, not
A then B: pandas groupby sorts the keys and the descending sort_values
reverses the ascending argsort wholesale, flipping the order of equal
totals, so ties are not broken by first-encountered source order. -/
theorem c7_counterexample :
    (get_selected_data c7Rows "MID" 10 1 2).2 = ["B", "A"]
    ∧ ["B", "A"] ≠ ["A", "B"] := by
  constructor
  · show topPlayers (recentData c7Rows "MID" 10 1) 2 = ["B", "A"]
    rw [recentData_c7Rows, topPlayers_c7Rows]
  · decide

/-- C7 amended: top-N selection ranks the grouped metric totals in
non-increasing order of total (so the total of every selected entity is at least
every unselected total) and takes the first N of this deterministic
ranking; but entities with equal totals appear in the reverse of the
grouped key order (reverse-alphabetical), not in first-encountered source
order — on totals [10, 10, 7] for A, B, C with N = 2 the selection is
B then A. -/
theorem c7_topn_ranking (rows : List AppRow) (n : ℕ) :
    (rankedTotals rows).Sorted (fun p q => q.2 ≤ p.2)
    ∧ (rankedTotals rows).Perm (metricTotals rows)
    ∧ (∀ p ∈ (rankedTotals rows).take n, ∀ q ∈ (rankedTotals rows).drop n,
        q.2 ≤ p.2)
    ∧ topPlayers c7Rows 2 = ["B", "A"] := by
  have hasc : (sortBy valLe (metricTotals rows)).Sorted
      (fun a b => valLe a b = true) :=
    sortBy_sorted valLe_total valLe_trans _
  have hdesc : (rankedTotals rows).Sorted (fun p q => q.2 ≤ p.2) := by
    rw [rankedTotals, sortValuesDesc]
    refine List.pairwise_reverse.mpr (hasc.imp ?_)
    intro a b h
    simpa [valLe] using h
  refine ⟨hdesc, ?_, ?_, ?_⟩
  · exact ((sortBy valLe (metricTotals rows)).reverse_perm).trans
      (sortBy_perm valLe (metricTotals rows))
  · intro p hp q hq
    rw [← List.take_append_drop n (rankedTotals rows)] at hdesc
    exact (List.pairwise_append.mp hdesc).2.2 p hp q hq
  · exact topPlayers_c7Rows

/-- Witness for C7 amended: the ranking of the scenario dataset is a
permutation of its grouped totals. -/
theorem c7_witness : (rankedTotals c7Rows).Perm (metricTotals c7Rows) :=
  (c7_topn_ranking c7Rows 2).2.1

/-- C8 counterexample: a player code absent from the durable reference
mapping whose full name has an exact FBRef match — the three tiers resolve
it, yet main still raises and returns no final dataset, so the run does not
raise "if and only if at least one code has no resolved name after the
tiers". -/
theorem c8_counterexample :
    tiersResolve ["John Smith"] (fun _ => none) "John Smith" = some "John Smith"
    ∧ (mainRun [(1, "John Smith")] [] ["John Smith"] (fun _ => none) false).raised
        = true
    ∧ (mainRun [(1, "John Smith")] [] ["John Smith"] (fun _ => none) false).output
        = none := by
  refine ⟨by decide, by decide, by decide⟩

/-- C8 amended: the reconciler main run raises exactly when at least one
fantasy player code has a null fbref_name after the left merge with the
durable reference mapping (the code is absent from the mapping or mapped to
null) — even when the exact/manual/fuzzy tiers would resolve every such
name, the run still stops for operator review; it raises exactly when no
final joined dataset is produced; and when the update flag is unset the
durable reference file is left unmodified. -/
theorem c8_reconciler_failure_condition (fpl : List (ℕ × String))
    (refRows : List RefRow) (fbrefNames : List String)
    (fuzzyBest : String → Option (String × ℚ)) (updateRef : Bool) :
    ((mainRun fpl refRows fbrefNames fuzzyBest updateRef).raised = true ↔
      ∃ r ∈ fpl, mergedRefName refRows r.1 = none)
    ∧ ((mainRun fpl refRows fbrefNames fuzzyBest updateRef).raised = true ↔
      (mainRun fpl refRows fbrefNames fuzzyBest updateRef).output = none)
    ∧ (updateRef = false →
      (mainRun fpl refRows fbrefNames fuzzyBest updateRef).refFile = refRows) := by
  by_cases he : (fpl.filter (fun r => (mergedRefName refRows r.1).isNone)).isEmpty = true
  · have hnone : ∀ r ∈ fpl, ¬ mergedRefName refRows r.1 = none := by
      rw [List.isEmpty_iff, List.filter_eq_nil_iff] at he
      intro r hr hc
      exact he r hr (by simp [hc])
    refine ⟨?_, ?_, ?_⟩
    · rw [mainRun, if_pos he]
      constructor
      · intro hc
        exact absurd hc (by simp)
      · rintro ⟨r, hr, hc⟩
        exact absurd hc (hnone r hr)
    · rw [mainRun, if_pos he]
      simp
    · intro _
      rw [mainRun, if_pos he]
  · have hsome : ∃ r ∈ fpl, mergedRefName refRows r.1 = none := by
      rw [List.isEmpty_iff] at he
      rcases List.exists_mem_of_ne_nil _ he with ⟨r, hr⟩
      rw [List.mem_filter] at hr
      exact ⟨r, hr.1, by simpa using hr.2⟩
    cases hu : updateRef with
    | true =>
        refine ⟨?_, ?_, ?_⟩
        · rw [mainRun, if_neg he, if_pos rfl]
          simpa using hsome
        · rw [mainRun, if_neg he, if_pos rfl]
          simp
        · intro hc
          cases hc
    | false =>
        refine ⟨?_, ?_, ?_⟩
        · rw [mainRun, if_neg he, if_neg (by simp)]
          simpa using hsome
        · rw [mainRun, if_neg he, if_neg (by simp)]
          simp
        · intro _
          rw [mainRun, if_neg he, if_neg (by simp)]

/-- Witness for C8 amended: with the update flag unset, the run on a
concrete missing code leaves the reference file untouched. -/
theorem c8_witness :
    (mainRun [(1, "John Doe")] [] ["Jo Doe"] (fun _ => none) false).refFile = [] :=
  (c8_reconciler_failure_condition [(1, "John Doe")] [] ["Jo Doe"]
    (fun _ => none) false).2.2 rfl

theorem gwLe_total (a b : AppRow) : gwLe a b = false → gwLe b a = true := by
  intro h
  simp only [gwLe, decide_eq_false_iff_not] at h
  simpa [gwLe] using le_of_not_le h

theorem gwLe_trans (a b c : AppRow) :
    gwLe a b = true → gwLe b c = true → gwLe a c = true := by
  intro h1 h2
  simp only [gwLe, decide_eq_true_eq] at h1 h2
  simpa [gwLe] using le_trans h1 h2

/-- C9: the cumulative series restarts at the window. For every selected
entity, the plotted rows are exactly the in-window rows of that entity sorted by
gameweek ascending, and the series is the running sum of the selected
metric over those rows only: the k-th point is the sum of the first k+1
in-window values, and the first point is the own metric value of the first in-window game — not a season-to-date total. -/
theorem c9_cumulative_series_restart (recent : List AppRow) (p : String) :
    (playerWindowRows recent p).Sorted
      (fun a b => a.gameweek_number ≤ b.gameweek_number)
    ∧ (playerWindowRows recent p).Perm (recent.filter (fun r => r.player == p))
    ∧ (playerSeries recent p).length = (playerWindowRows recent p).length
    ∧ (∀ k, k < (playerWindowRows recent p).length →
        (playerSeries recent p)[k]? =
          some ((((playerWindowRows recent p).map (fun r => r.metric)).take
            (k + 1)).sum))
    ∧ (∀ r rest, playerWindowRows recent p = r :: rest →
        (playerSeries recent p).head? = some r.metric) := by
  have hsorted := sortBy_sorted gwLe_total gwLe_trans
    (recent.filter (fun r => r.player == p))
  have hget : ∀ k, k < (playerWindowRows recent p).length →
      (playerSeries recent p)[k]? =
        some ((((playerWindowRows recent p).map (fun r => r.metric)).take
          (k + 1)).sum) := by
    intro k hk
    have hk2 : k < ((playerWindowRows recent p).map (fun r => r.metric)).length := by
      simpa using hk
    rw [playerSeries, cumsum, cumsumFrom_getElem _ _ _ hk2, zero_add]
  refine ⟨?_, ?_, ?_, hget, ?_⟩
  · exact hsorted.imp (fun h => by simpa [gwLe] using h)
  · exact sortBy_perm gwLe (recent.filter (fun r => r.player == p))
  · rw [playerSeries, cumsum, cumsumFrom_length, List.length_map]
  · intro r rest hr
    have h0 := hget 0 (by rw [hr]; simp)
    rw [hr] at h0
    simp only [List.map_cons, List.take_succ_cons, List.take_zero,
      List.sum_cons, List.sum_nil, add_zero] at h0
    rw [← List.head?_eq_getElem?] at h0
    exact h0

/-- Window rows used by the C9 witness. -/
def c9Rows : List AppRow :=
  [⟨"A", "MID", 5, 3, 4, 90⟩, ⟨"A", "MID", 5, 2, 1, 90⟩, ⟨"B", "MID", 5, 2, 6, 90⟩]

/-- Witness for C9: the plotted rows of a concrete player are a permutation
of exactly the window rows of that player. -/
theorem c9_witness :
    (playerWindowRows c9Rows "A").Perm
      (c9Rows.filter (fun r => r.player == "A")) :=
  (c9_cumulative_series_restart c9Rows "A").2.1

/-- C10: the fantasy-pricing loader restricts the universe. Every row
returned by get_fpl_data has strictly positive total_points (zero-point
players are dropped before reconciliation), and each returned row is the
transform of a feed element whose fpl_cost is the raw now_cost divided by
ten. -/
theorem c10_fpl_loader_filter (elements : List RawElement) (p : FplPlayer)
    (hp : p ∈ get_fpl_data elements) :
    0 < p.total_points
    ∧ ∃ e ∈ elements, p = toFplPlayer e ∧ p.fpl_cost = (e.now_cost : ℚ) / 10 := by
  rw [get_fpl_data, List.mem_filter] at hp
  refine ⟨by simpa using hp.2, ?_⟩
  rcases List.mem_map.mp hp.1 with ⟨e, he, rfl⟩
  exact ⟨e, he, rfl, rfl⟩

/-- Feed element used by the C10 witness. -/
def c10Elem : RawElement := ⟨123, 3, "John", "Smith", 55, "3.5", "4.2", 10⟩

/-- Witness for C10: the loader keeps a concrete element with positive
points, and the kept row indeed has positive total_points. -/
theorem c10_witness : 0 < (toFplPlayer c10Elem).total_points :=
  (c10_fpl_loader_filter [c10Elem] (toFplPlayer c10Elem)
    (List.mem_filter.mpr ⟨List.mem_map_of_mem _ (List.mem_singleton_self _),
      by decide⟩)).1

end FFBot
